import Mathlib

/-!
Formal model of the `concurrent-queue` library (crate root `src/src/lib.rs`).

The crate's public façade (`ConcurrentQueue`, `PushError`, `PopError`, and the
dispatching methods) is translated directly from `src/src/lib.rs`.  The two
engine modules that the façade dispatches to (`mod bounded;` and
`mod unbounded;`, declared at `src/src/lib.rs` lines 39-40) are part of the
repository but their source files are not present; those engines are modelled
from the specification, as noted on each definition.

All operations are modelled sequentially: every queue operation is atomic
(the spec guarantees linearizability of push/pop/close over the atomic
head/tail counters), so a concurrent interleaving of operations is modelled
as an arbitrary linear sequence of atomic operations.
-/

namespace ConcurrentQueueModel

/-- Error which occurs when popping from an empty queue.
    Translated from `src/src/lib.rs` lines 322-330. -/
inductive PopError where
  /-- The queue is empty but not closed. -/
  | Empty
  /-- The queue is empty and closed. -/
  | Closed
deriving DecidableEq

/-- Error which occurs when pushing into a full or closed queue.
    Translated from `src/src/lib.rs` lines 352-360. -/
inductive PushError (α : Type) where
  /-- The queue is full but not closed. -/
  | Full (value : α)
  /-- The queue is closed. -/
  | Closed (value : α)
deriving DecidableEq

/-- Modelled from the spec: the bounded engine (`mod bounded;`,
    `src/src/lib.rs` line 39, file not present in the repository snapshot).
    Spec §3 "Bounded queue state" and §4.1: a fixed-capacity FIFO ring with a
    closed flag folded into the tail word.  The stamped-slot ring of §4.1 is
    represented by its logical content: the immutable `capacity`, the FIFO
    sequence `items` currently held (front first), and the `closed` bit. -/
structure Bounded (α : Type) where
  capacity : Nat
  items : List α
  closed : Bool
deriving DecidableEq

/-- Modelled from the spec: the unbounded engine (`mod unbounded;`,
    `src/src/lib.rs` line 40, file not present in the repository snapshot).
    Spec §3 "Unbounded queue state" and §4.2: a segmented FIFO list with a
    closed flag folded into the head word, represented by its logical
    content: the FIFO sequence `items` and the `closed` bit. -/
structure Unbounded (α : Type) where
  items : List α
  closed : Bool
deriving DecidableEq

namespace Bounded

/-- Modelled from the spec, §4.1 Construction: `new(cap)` requires
    `cap ≥ 1`; fails (panics) otherwise, yielding an empty open queue.
    The panic is modelled as `none`. -/
def new (cap : Nat) : Option (Bounded α) :=
  if cap = 0 then none else some ⟨cap, [], false⟩

/-- Modelled from the spec, §4.1 push: step 1 returns `Closed(value)` when
    the closed bit is set; step 4 returns `Full(value)` when the slot still
    holds an unread item from the previous lap, i.e. the queue holds
    `capacity` items; step 3 otherwise claims the tail slot and publishes the
    value at the back of the FIFO order, returning `Ok`. -/
def push (q : Bounded α) (v : α) : Bounded α × Except (PushError α) Unit :=
  if q.closed then (q, .error (.Closed v))
  else if q.items.length = q.capacity then (q, .error (.Full v))
  else ({ q with items := q.items ++ [v] }, .ok ())

/-- Modelled from the spec, §4.1 pop: step 2 consumes the front slot and
    returns `Ok(value)` when an item is present; step 3 returns `Closed`
    when empty with the closed bit set on tail, else `Empty`. -/
def pop (q : Bounded α) : Bounded α × Except PopError α :=
  match q.items with
  | [] => (q, .error (if q.closed then .Closed else .Empty))
  | v :: rest => ({ q with items := rest }, .ok v)

/-- Modelled from the spec, §4.1 close: atomically set the closed bit on
    `tail` using a fetch-or; return `true` iff the bit transitioned from
    clear to set. -/
def close (q : Bounded α) : Bounded α × Bool :=
  ({ q with closed := true }, !q.closed)

/-- Modelled from the spec, §4.1 len: the number of items between head and
    tail. -/
def len (q : Bounded α) : Nat := q.items.length

/-- Modelled from the spec, §4.1 is_empty: the queue holds zero items
    (closed bit masked out). -/
def is_empty (q : Bounded α) : Bool := q.items.isEmpty

/-- Modelled from the spec, §4.1 is_full: the queue currently holds
    `capacity` items (closed bit masked out). -/
def is_full (q : Bounded α) : Bool := q.items.length == q.capacity

/-- Modelled from the spec, §6: `capacity()` returns the bounded cap. -/
def cap (q : Bounded α) : Nat := q.capacity

/-- Modelled from the spec, §6: `is_closed()` reports the closed bit. -/
def is_closed (q : Bounded α) : Bool := q.closed

end Bounded

namespace Unbounded

/-- Modelled from the spec, §3 Lifecycle: an unbounded queue is created
    with exactly one empty block, i.e. logically empty and open. -/
def new : Unbounded α := ⟨[], false⟩

/-- Modelled from the spec, §4.2 push: step 4 returns `Closed(value)` when
    the closed flag (on head) is set, without taking a slot; otherwise a
    slot is claimed at the tail (growing a new block when needed, so the
    push never fails with `Full`) and the value published, returning `Ok`. -/
def push (q : Unbounded α) (v : α) : Unbounded α × Except (PushError α) Unit :=
  if q.closed then (q, .error (.Closed v))
  else ({ q with items := q.items ++ [v] }, .ok ())

/-- Modelled from the spec, §4.2 pop: step 1 returns `Closed` when the
    closed bit is set and the queue is logically empty, `Empty` when open
    and empty; step 2 otherwise consumes the front slot, returning
    `Ok(value)`. -/
def pop (q : Unbounded α) : Unbounded α × Except PopError α :=
  match q.items with
  | [] => (q, .error (if q.closed then .Closed else .Empty))
  | v :: rest => ({ q with items := rest }, .ok v)

/-- Modelled from the spec, §4.2 close: fetch-or on head's closed bit;
    return `true` iff the bit transitioned from clear to set. -/
def close (q : Unbounded α) : Unbounded α × Bool :=
  ({ q with closed := true }, !q.closed)

/-- Modelled from the spec, §4.2 len: the item count between head and
    tail. -/
def len (q : Unbounded α) : Nat := q.items.length

/-- Modelled from the spec, §4.2 emptiness check: the queue is empty iff
    head and tail coincide, i.e. no items are held. -/
def is_empty (q : Unbounded α) : Bool := q.items.isEmpty

/-- Modelled from the spec, §6: `is_full()` is always false for
    unbounded. -/
def is_full (_q : Unbounded α) : Bool := false

/-- Modelled from the spec, §6: `is_closed()` reports the closed bit. -/
def is_closed (q : Unbounded α) : Bool := q.closed

end Unbounded

/-- The inner engine selector.  Translated from `src/src/lib.rs`
    lines 64-67. -/
inductive Inner (α : Type) where
  | Bounded (q : Bounded α)
  | Unbounded (q : Unbounded α)
deriving DecidableEq

/-- A concurrent queue.  Translated from `src/src/lib.rs` line 59:
    `pub struct ConcurrentQueue<T>(Inner<T>);`. -/
structure ConcurrentQueue (α : Type) where
  inner : Inner α
deriving DecidableEq

namespace ConcurrentQueue

/-- Creates a new bounded queue.  Translated from `src/src/lib.rs`
    lines 85-87; the documented panic on zero capacity (lines 74-76)
    surfaces as `none`. -/
def bounded (cap : Nat) : Option (ConcurrentQueue α) :=
  (Bounded.new cap).map fun q => ⟨.Bounded q⟩

/-- Creates a new unbounded queue.  Translated from `src/src/lib.rs`
    lines 98-100. -/
def unbounded : ConcurrentQueue α := ⟨.Unbounded Unbounded.new⟩

/-- Attempts to push an item into the queue.  Translated from
    `src/src/lib.rs` lines 131-136: dispatch on the inner engine. -/
def push (q : ConcurrentQueue α) (v : α) :
    ConcurrentQueue α × Except (PushError α) Unit :=
  match q.inner with
  | .Bounded b => let (b2, r) := b.push v; (⟨.Bounded b2⟩, r)
  | .Unbounded u => let (u2, r) := u.push v; (⟨.Unbounded u2⟩, r)

/-- Attempts to pop an item from the queue.  Translated from
    `src/src/lib.rs` lines 163-168: dispatch on the inner engine. -/
def pop (q : ConcurrentQueue α) : ConcurrentQueue α × Except PopError α :=
  match q.inner with
  | .Bounded b => let (b2, r) := b.pop; (⟨.Bounded b2⟩, r)
  | .Unbounded u => let (u2, r) := u.pop; (⟨.Unbounded u2⟩, r)

/-- Returns `true` if the queue is empty.  Translated from
    `src/src/lib.rs` lines 183-188. -/
def is_empty (q : ConcurrentQueue α) : Bool :=
  match q.inner with
  | .Bounded b => b.is_empty
  | .Unbounded u => u.is_empty

/-- Returns `true` if the queue is full.  Translated from
    `src/src/lib.rs` lines 205-210. -/
def is_full (q : ConcurrentQueue α) : Bool :=
  match q.inner with
  | .Bounded b => b.is_full
  | .Unbounded u => u.is_full

/-- Returns the number of items in the queue.  Translated from
    `src/src/lib.rs` lines 228-233. -/
def len (q : ConcurrentQueue α) : Nat :=
  match q.inner with
  | .Bounded b => b.len
  | .Unbounded u => u.len

/-- Returns the capacity of the queue, `none` for unbounded.  Translated
    from `src/src/lib.rs` lines 250-255. -/
def capacity (q : ConcurrentQueue α) : Option Nat :=
  match q.inner with
  | .Bounded b => some b.cap
  | .Unbounded _ => none

/-- Closes the queue; `true` iff this call closed it.  Translated from
    `src/src/lib.rs` lines 284-289. -/
def close (q : ConcurrentQueue α) : ConcurrentQueue α × Bool :=
  match q.inner with
  | .Bounded b => let (b2, r) := b.close; (⟨.Bounded b2⟩, r)
  | .Unbounded u => let (u2, r) := u.close; (⟨.Unbounded u2⟩, r)

/-- Returns `true` if the queue is closed.  Translated from
    `src/src/lib.rs` lines 304-309. -/
def is_closed (q : ConcurrentQueue α) : Bool :=
  match q.inner with
  | .Bounded b => b.is_closed
  | .Unbounded u => u.is_closed

/-- The logical FIFO content of a queue (front first): the abstraction both
    engines share (spec §2, "Two independent core engines implement the
    same logical contract"). -/
def items (q : ConcurrentQueue α) : List α :=
  match q.inner with
  | .Bounded b => b.items
  | .Unbounded u => u.items

end ConcurrentQueue

/-- One atomic queue operation, used to quantify over arbitrary linearized
    operation sequences. -/
inductive Op (α : Type) where
  | push (v : α)
  | pop
  | close
deriving DecidableEq

/-- Apply one operation, keeping only the resulting state. -/
def applyOp (q : ConcurrentQueue α) : Op α → ConcurrentQueue α
  | .push v => (q.push v).1
  | .pop => q.pop.1
  | .close => q.close.1

/-- Run a sequence of operations from a starting state. -/
def runOps (q : ConcurrentQueue α) (ops : List (Op α)) : ConcurrentQueue α :=
  ops.foldl applyOp q

/-- Pop `n` times, collecting the successfully returned values in order;
    stop at the first pop that errors. -/
def popN (q : ConcurrentQueue α) : Nat → List α
  | 0 => []
  | n + 1 =>
    match q.pop with
    | (q2, .ok v) => v :: popN q2 n
    | (_, .error _) => []

/-- Run a sequence of operations, also collecting the values accepted by
    successful pushes and the values returned by successful pops, each in
    operation order. -/
def runTrace (q : ConcurrentQueue α) :
    List (Op α) → ConcurrentQueue α × List α × List α
  | [] => (q, [], [])
  | op :: ops =>
    match op with
    | .push v =>
      let s := q.push v
      let t := runTrace s.1 ops
      match s.2 with
      | .ok _ => (t.1, v :: t.2.1, t.2.2)
      | .error _ => (t.1, t.2.1, t.2.2)
    | .pop =>
      let s := q.pop
      let t := runTrace s.1 ops
      match s.2 with
      | .ok v => (t.1, t.2.1, v :: t.2.2)
      | .error _ => (t.1, t.2.1, t.2.2)
    | .close => runTrace (q.close).1 ops

/-- A sample open unbounded queue holding one item, used to instantiate
    universally quantified theorems at a concrete state. -/
def sampleU : ConcurrentQueue Nat := ⟨.Unbounded ⟨[5], false⟩⟩

/-- A sample open bounded queue of capacity 2 holding one item. -/
def sampleB7 : ConcurrentQueue Nat := ⟨.Bounded ⟨2, [7], false⟩⟩

/-- A sample open bounded queue of capacity 1 that is at capacity. -/
def sampleBFull : ConcurrentQueue Nat := ⟨.Bounded ⟨1, [3], false⟩⟩

end ConcurrentQueueModel

namespace ConcurrentQueueModel

section Helpers

variable {α : Type}

theorem runOps_nil (q : ConcurrentQueue α) : runOps q [] = q := rfl

theorem runOps_cons (q : ConcurrentQueue α) (op : Op α) (ops : List (Op α)) :
    runOps q (op :: ops) = runOps (applyOp q op) ops := rfl

theorem len_eq_items_length (q : ConcurrentQueue α) :
    q.len = q.items.length := by
  obtain ⟨inner⟩ := q
  cases inner <;> rfl

theorem push_of_closed (q : ConcurrentQueue α) (v : α)
    (h : q.is_closed = true) : q.push v = (q, .error (.Closed v)) := by
  obtain ⟨inner⟩ := q
  cases inner with
  | Bounded b =>
    simp [ConcurrentQueue.is_closed, Bounded.is_closed] at h
    simp [ConcurrentQueue.push, Bounded.push, h]
  | Unbounded u =>
    simp [ConcurrentQueue.is_closed, Unbounded.is_closed] at h
    simp [ConcurrentQueue.push, Unbounded.push, h]

theorem push_is_closed (q : ConcurrentQueue α) (v : α) :
    ((q.push v).1).is_closed = q.is_closed := by
  obtain ⟨inner⟩ := q
  cases inner with
  | Bounded b =>
    simp only [ConcurrentQueue.push, Bounded.push]
    split <;> [rfl; (split <;> rfl)]
  | Unbounded u =>
    simp only [ConcurrentQueue.push, Unbounded.push]
    split <;> rfl

theorem push_items_of_ok (q : ConcurrentQueue α) (v : α)
    (h : (q.push v).2 = .ok ()) : ((q.push v).1).items = q.items ++ [v] := by
  obtain ⟨inner⟩ := q
  cases inner with
  | Bounded b =>
    by_cases hc : b.closed = true
    · simp [ConcurrentQueue.push, Bounded.push, hc] at h
    · by_cases hf : b.items.length = b.capacity
      · simp [ConcurrentQueue.push, Bounded.push, hc, hf] at h
      · simp [ConcurrentQueue.push, Bounded.push, hc, hf, ConcurrentQueue.items]
  | Unbounded u =>
    by_cases hc : u.closed = true
    · simp [ConcurrentQueue.push, Unbounded.push, hc] at h
    · simp [ConcurrentQueue.push, Unbounded.push, hc, ConcurrentQueue.items]

theorem pop_of_empty (q : ConcurrentQueue α) (h : q.items = []) :
    q.pop = (q, .error (if q.is_closed then .Closed else .Empty)) := by
  obtain ⟨inner⟩ := q
  cases inner with
  | Bounded b =>
    simp only [ConcurrentQueue.items] at h
    simp [ConcurrentQueue.pop, Bounded.pop, h, ConcurrentQueue.is_closed,
      Bounded.is_closed]
  | Unbounded u =>
    simp only [ConcurrentQueue.items] at h
    simp [ConcurrentQueue.pop, Unbounded.pop, h, ConcurrentQueue.is_closed,
      Unbounded.is_closed]

theorem pop_of_cons (q : ConcurrentQueue α) (v : α) (rest : List α)
    (h : q.items = v :: rest) :
    (q.pop).2 = .ok v ∧ ((q.pop).1).items = rest ∧
      ((q.pop).1).is_closed = q.is_closed := by
  obtain ⟨inner⟩ := q
  cases inner with
  | Bounded b =>
    simp only [ConcurrentQueue.items] at h
    refine ⟨?_, ?_, ?_⟩ <;>
      simp [ConcurrentQueue.pop, Bounded.pop, h, ConcurrentQueue.items,
        ConcurrentQueue.is_closed, Bounded.is_closed]
  | Unbounded u =>
    simp only [ConcurrentQueue.items] at h
    refine ⟨?_, ?_, ?_⟩ <;>
      simp [ConcurrentQueue.pop, Unbounded.pop, h, ConcurrentQueue.items,
        ConcurrentQueue.is_closed, Unbounded.is_closed]

theorem pop_is_closed (q : ConcurrentQueue α) :
    ((q.pop).1).is_closed = q.is_closed := by
  cases h : q.items with
  | nil => rw [pop_of_empty q h]
  | cons v rest => exact (pop_of_cons q v rest h).2.2

theorem close_is_closed (q : ConcurrentQueue α) :
    ((q.close).1).is_closed = true := by
  obtain ⟨inner⟩ := q
  cases inner <;> rfl

theorem close_ret (q : ConcurrentQueue α) :
    (q.close).2 = !q.is_closed := by
  obtain ⟨inner⟩ := q
  cases inner <;> rfl

theorem close_items (q : ConcurrentQueue α) :
    ((q.close).1).items = q.items := by
  obtain ⟨inner⟩ := q
  cases inner <;> rfl

theorem applyOp_is_closed_true (q : ConcurrentQueue α) (op : Op α)
    (h : q.is_closed = true) : (applyOp q op).is_closed = true := by
  cases op with
  | push v => rw [applyOp, push_is_closed]; exact h
  | pop => rw [applyOp, pop_is_closed]; exact h
  | close => exact close_is_closed q

theorem runOps_is_closed_true (q : ConcurrentQueue α) (ops : List (Op α))
    (h : q.is_closed = true) : (runOps q ops).is_closed = true := by
  induction ops generalizing q with
  | nil => exact h
  | cons op ops ih => exact ih _ (applyOp_is_closed_true q op h)

theorem applyOp_is_closed_false (q : ConcurrentQueue α) (op : Op α)
    (hop : op ≠ Op.close) (h : q.is_closed = false) :
    (applyOp q op).is_closed = false := by
  cases op with
  | push v => rw [applyOp, push_is_closed]; exact h
  | pop => rw [applyOp, pop_is_closed]; exact h
  | close => exact absurd rfl hop

theorem runOps_is_closed_false (q : ConcurrentQueue α) (ops : List (Op α))
    (hops : Op.close ∉ ops) (h : q.is_closed = false) :
    (runOps q ops).is_closed = false := by
  induction ops generalizing q with
  | nil => exact h
  | cons op ops ih =>
    rw [runOps_cons]
    refine ih _ (fun hc => hops (List.mem_cons_of_mem _ hc)) ?_
    exact applyOp_is_closed_false q op
      (fun he => hops (he ▸ List.mem_cons_self _ _)) h

theorem push_state_of_error (q : ConcurrentQueue α) (v : α)
    (e : PushError α) (h : (q.push v).2 = .error e) : (q.push v).1 = q := by
  obtain ⟨inner⟩ := q
  cases inner with
  | Bounded b =>
    by_cases hc : b.closed = true
    · simp [ConcurrentQueue.push, Bounded.push, hc]
    · by_cases hf : b.items.length = b.capacity
      · simp [ConcurrentQueue.push, Bounded.push, hc, hf]
      · simp [ConcurrentQueue.push, Bounded.push, hc, hf] at h
  | Unbounded u =>
    by_cases hc : u.closed = true
    · simp [ConcurrentQueue.push, Unbounded.push, hc]
    · simp [ConcurrentQueue.push, Unbounded.push, hc] at h

theorem pop_ok_inverse (q : ConcurrentQueue α) (v : α)
    (h : (q.pop).2 = .ok v) : q.items = v :: ((q.pop).1).items := by
  cases hi : q.items with
  | nil =>
    rw [pop_of_empty q hi] at h
    exact absurd h (by simp)
  | cons w rest =>
    obtain ⟨h1, h2, _⟩ := pop_of_cons q w rest hi
    rw [h1] at h
    injection h with hv
    rw [h2, ← hv]

theorem pop_state_of_error (q : ConcurrentQueue α) (e : PopError)
    (h : (q.pop).2 = .error e) : (q.pop).1 = q := by
  cases hi : q.items with
  | nil => rw [pop_of_empty q hi]
  | cons w rest =>
    rw [(pop_of_cons q w rest hi).1] at h
    exact absurd h (by simp)

theorem applyOp_capacity (q : ConcurrentQueue α) (op : Op α) :
    (applyOp q op).capacity = q.capacity := by
  obtain ⟨inner⟩ := q
  cases inner with
  | Bounded b =>
    cases op with
    | push v =>
      simp only [applyOp, ConcurrentQueue.push, Bounded.push]
      split
      · rfl
      · split <;> rfl
    | pop =>
      simp only [applyOp, ConcurrentQueue.pop, Bounded.pop]
      cases b.items <;> rfl
    | close => rfl
  | Unbounded u =>
    cases op with
    | push v =>
      simp only [applyOp, ConcurrentQueue.push, Unbounded.push]
      split <;> rfl
    | pop =>
      simp only [applyOp, ConcurrentQueue.pop, Unbounded.pop]
      cases u.items <;> rfl
    | close => rfl

theorem runOps_capacity (q : ConcurrentQueue α) (ops : List (Op α)) :
    (runOps q ops).capacity = q.capacity := by
  induction ops generalizing q with
  | nil => rfl
  | cons op ops ih => rw [runOps_cons, ih, applyOp_capacity]

theorem is_full_of_capacity_none (q : ConcurrentQueue α)
    (h : q.capacity = none) : q.is_full = false := by
  obtain ⟨inner⟩ := q
  cases inner with
  | Bounded b => simp [ConcurrentQueue.capacity] at h
  | Unbounded u => rfl

theorem push_not_full_of_capacity_none (q : ConcurrentQueue α) (v w : α)
    (h : q.capacity = none) : (q.push v).2 ≠ .error (.Full w) := by
  obtain ⟨inner⟩ := q
  cases inner with
  | Bounded b => simp [ConcurrentQueue.capacity] at h
  | Unbounded u =>
    by_cases hc : u.closed = true <;>
      simp [ConcurrentQueue.push, Unbounded.push, hc]

theorem push_ok_of_capacity_none_open (q : ConcurrentQueue α) (v : α)
    (h : q.capacity = none) (ho : q.is_closed = false) :
    (q.push v).2 = .ok () := by
  obtain ⟨inner⟩ := q
  cases inner with
  | Bounded b => simp [ConcurrentQueue.capacity] at h
  | Unbounded u =>
    simp only [ConcurrentQueue.is_closed, Unbounded.is_closed] at ho
    simp [ConcurrentQueue.push, Unbounded.push, ho]

theorem bounded_some_spec (cap : Nat) (q0 : ConcurrentQueue α)
    (h : ConcurrentQueue.bounded cap = some q0) :
    cap ≠ 0 ∧ q0 = ⟨Inner.Bounded ⟨cap, [], false⟩⟩ := by
  by_cases hc : cap = 0
  · simp [ConcurrentQueue.bounded, Bounded.new, hc] at h
  · refine ⟨hc, ?_⟩
    have h2 : some (⟨Inner.Bounded ⟨cap, [], false⟩⟩ : ConcurrentQueue α)
        = some q0 := by
      simpa [ConcurrentQueue.bounded, Bounded.new, hc] using h
    injection h2 with h3
    exact h3.symm

theorem applyOp_bounded_inv (cap : Nat) (q : ConcurrentQueue α) (op : Op α)
    (h : ∃ b, q.inner = Inner.Bounded b ∧ b.capacity = cap ∧
      b.items.length ≤ cap) :
    ∃ b, (applyOp q op).inner = Inner.Bounded b ∧ b.capacity = cap ∧
      b.items.length ≤ cap := by
  obtain ⟨b, hb, hcap, hlen⟩ := h
  obtain ⟨inner⟩ := q
  simp only at hb
  subst hb
  cases op with
  | push v =>
    by_cases hc : b.closed = true
    · exact ⟨b, by simp [applyOp, ConcurrentQueue.push, Bounded.push, hc],
        hcap, hlen⟩
    · by_cases hf : b.items.length = b.capacity
      · exact ⟨b,
          by simp [applyOp, ConcurrentQueue.push, Bounded.push, hc, hf],
          hcap, hlen⟩
      · refine ⟨{ b with items := b.items ++ [v] },
          by simp [applyOp, ConcurrentQueue.push, Bounded.push, hc, hf],
          hcap, ?_⟩
        simp only [List.length_append, List.length_cons, List.length_nil]
        omega
  | pop =>
    cases hi : b.items with
    | nil =>
      exact ⟨b, by simp [applyOp, ConcurrentQueue.pop, Bounded.pop, hi],
        hcap, hlen⟩
    | cons v rest =>
      refine ⟨{ b with items := rest },
        by simp [applyOp, ConcurrentQueue.pop, Bounded.pop, hi], hcap, ?_⟩
      rw [hi] at hlen
      simp only [List.length_cons] at hlen
      show rest.length ≤ cap
      omega
  | close => exact ⟨{ b with closed := true }, rfl, hcap, hlen⟩

theorem runOps_bounded_inv (cap : Nat) (q : ConcurrentQueue α)
    (ops : List (Op α))
    (h : ∃ b, q.inner = Inner.Bounded b ∧ b.capacity = cap ∧
      b.items.length ≤ cap) :
    ∃ b, (runOps q ops).inner = Inner.Bounded b ∧ b.capacity = cap ∧
      b.items.length ≤ cap := by
  induction ops generalizing q with
  | nil => exact h
  | cons op ops ih => exact ih _ (applyOp_bounded_inv cap q op h)

theorem len_of_inner_bounded (q : ConcurrentQueue α) (b : Bounded α)
    (h : q.inner = Inner.Bounded b) : q.len = b.items.length := by
  obtain ⟨inner⟩ := q
  simp only at h
  subst h
  rfl

theorem runTrace_invariant (ops : List (Op α)) (q : ConcurrentQueue α) :
    (runTrace q ops).2.2 ++ ((runTrace q ops).1).items =
      q.items ++ (runTrace q ops).2.1 := by
  induction ops generalizing q with
  | nil => simp [runTrace]
  | cons op ops ih =>
    cases op with
    | push v =>
      cases h : (q.push v).2 with
      | ok u =>
        obtain rfl : u = () := rfl
        have hitems := push_items_of_ok q v h
        simp only [runTrace, h]
        rw [ih ((q.push v).1), hitems, List.append_assoc]
        rfl
      | error e =>
        have hstate := push_state_of_error q v e h
        simp only [runTrace, h]
        rw [ih ((q.push v).1), hstate]
    | pop =>
      cases h : (q.pop).2 with
      | ok v =>
        have hitems := pop_ok_inverse q v h
        simp only [runTrace, h]
        rw [List.cons_append, ih ((q.pop).1), hitems]
        rfl
      | error e =>
        have hstate := pop_state_of_error q e h
        simp only [runTrace, h]
        rw [ih ((q.pop).1), hstate]
    | close =>
      simp only [runTrace]
      rw [ih ((q.close).1), close_items]

theorem popN_of_items (l : List α) (q : ConcurrentQueue α)
    (h : q.items = l) : popN q l.length = l := by
  induction l generalizing q with
  | nil => rfl
  | cons v rest ih =>
    obtain ⟨h1, h2, _⟩ := pop_of_cons q v rest h
    rw [List.length_cons, popN]
    have hq : q.pop = ((q.pop).1, Except.ok v) := by
      rw [← h1]
    split
    · next q2 w heq =>
      rw [hq] at heq
      obtain ⟨rfl, rfl⟩ : (q.pop).1 = q2 ∧ v = w := by
        injection heq with e1 e2
        exact ⟨e1, by injection e2⟩
      rw [ih _ h2]
    · next heq =>
      rw [hq] at heq
      injection heq with _ e2
      exact absurd e2 (by simp)

end Helpers

/-- Claim C1: on the queue created by `bounded(2)`, the sequence
    push 'a', push 'b', push 'c', pop, pop, pop returns, in order,
    Ok, Ok, Full('c'), Ok('a'), Ok('b'), Empty. -/
theorem c1_bounded_fifo_scenario :
    (ConcurrentQueue.bounded (α := Char) 2).map (fun q0 =>
      let s1 := q0.push 'a'
      let s2 := s1.1.push 'b'
      let s3 := s2.1.push 'c'
      let s4 := s3.1.pop
      let s5 := s4.1.pop
      let s6 := s5.1.pop
      (s1.2, s2.2, s3.2, s4.2, s5.2, s6.2)) =
    some (.ok (), .ok (), .error (.Full 'c'),
          .ok 'a', .ok 'b', .error .Empty) := by
  rfl

/-- Claim C2: once a close() call has returned true, every subsequent push
    (after any further sequence of operations) returns Closed carrying the
    pushed value — never Ok and never Full — and the items held when the
    queue was closed are all still returned, in order, by later pops. -/
theorem c2_close_permanent_and_lossless {α : Type} (q : ConcurrentQueue α)
    (_h : (q.close).2 = true) :
    (∀ ops v, ((runOps ((q.close).1) ops).push v).2 =
      Except.error (.Closed v)) ∧
    popN ((q.close).1) (((q.close).1).len) = q.items := by
  constructor
  · intro ops v
    have hc : (((q.close).1)).is_closed = true := close_is_closed q
    have hall := runOps_is_closed_true ((q.close).1) ops hc
    rw [push_of_closed _ v hall]
  · have hitems : (((q.close).1)).items = q.items := close_items q
    rw [len_eq_items_length, hitems]
    exact popN_of_items q.items ((q.close).1) hitems

/-- Witness for C2 at a concrete unbounded queue holding `[5]`. -/
theorem c2_close_permanent_and_lossless_witness :
    ((sampleU.close).2 = true) ∧
    ((runOps ((sampleU.close).1) [Op.pop]).push 7).2 =
      Except.error (.Closed 7) ∧
    popN ((sampleU.close).1) (((sampleU.close).1).len) = sampleU.items :=
  ⟨rfl, (c2_close_permanent_and_lossless sampleU rfl).1 [Op.pop] 7,
    (c2_close_permanent_and_lossless sampleU rfl).2⟩

/-- Claim C3: starting from any freshly constructed queue, after any
    sequence of operations containing no close, the first close() returns
    true and leaves the queue closed; after that first close, any later
    close() (after any further operations) returns false, and is_closed()
    stays true. -/
theorem c3_close_idempotent {α : Type} (q0 : ConcurrentQueue α) (cap : Nat)
    (ops ops2 : List (Op α))
    (hinit : ConcurrentQueue.bounded cap = some q0 ∨
      q0 = ConcurrentQueue.unbounded)
    (hops : Op.close ∉ ops) :
    ((runOps q0 ops).close).2 = true ∧
    (((runOps q0 ops).close).1).is_closed = true ∧
    ((runOps ((((runOps q0 ops).close).1)) ops2).close).2 = false ∧
    (runOps ((((runOps q0 ops).close).1)) ops2).is_closed = true := by
  have h0 : q0.is_closed = false := by
    rcases hinit with h | h
    · simp only [ConcurrentQueue.bounded, Bounded.new] at h
      by_cases hc : cap = 0
      · simp [hc] at h
      · have h2 : some (⟨.Bounded ⟨cap, [], false⟩⟩ : ConcurrentQueue α)
            = some q0 := by simpa [hc] using h
        injection h2 with h3
        rw [← h3]
        rfl
    · rw [h]; rfl
  have hopen : (runOps q0 ops).is_closed = false :=
    runOps_is_closed_false q0 ops hops h0
  have hclosed1 : (((runOps q0 ops).close).1).is_closed = true :=
    close_is_closed _
  have hclosed2 : (runOps ((((runOps q0 ops).close).1)) ops2).is_closed
      = true := runOps_is_closed_true _ ops2 hclosed1
  refine ⟨?_, hclosed1, ?_, hclosed2⟩
  · rw [close_ret, hopen]; rfl
  · rw [close_ret, hclosed2]; rfl

/-- Witness for C3: a fresh bounded queue of capacity 2, one non-close
    operation before the first close, one operation between closes. -/
theorem c3_close_idempotent_witness :
    (ConcurrentQueue.bounded 2 = some (⟨.Bounded ⟨2, [], false⟩⟩ :
        ConcurrentQueue Nat) ∨
      (⟨.Bounded ⟨2, [], false⟩⟩ : ConcurrentQueue Nat) =
        ConcurrentQueue.unbounded) ∧
    Op.close ∉ [Op.push 4] ∧
    (((runOps (⟨.Bounded ⟨2, [], false⟩⟩ : ConcurrentQueue Nat)
        [Op.push 4]).close).2 = true ∧
      ((runOps ((((runOps (⟨.Bounded ⟨2, [], false⟩⟩ : ConcurrentQueue Nat)
        [Op.push 4]).close).1)) [Op.pop]).close).2 = false) := by
  refine ⟨Or.inl rfl, by decide, ?_, ?_⟩
  · exact (c3_close_idempotent _ 2 [Op.push 4] [Op.pop]
      (Or.inl rfl) (by decide)).1
  · exact (c3_close_idempotent _ 2 [Op.push 4] [Op.pop]
      (Or.inl rfl) (by decide)).2.2.1

/-- Claim C4: pop() returns the error Closed exactly when the queue holds
    no items and is closed, the error Empty exactly when it holds no items
    and is open, and when at least one item is held pop() returns Ok with
    the front item (closed or not). -/
theorem c4_pop_error_taxonomy {α : Type} (q : ConcurrentQueue α) :
    ((q.pop).2 = Except.error PopError.Closed ↔
      q.items = [] ∧ q.is_closed = true) ∧
    ((q.pop).2 = Except.error PopError.Empty ↔
      q.items = [] ∧ q.is_closed = false) ∧
    (∀ v rest, q.items = v :: rest → (q.pop).2 = Except.ok v) := by
  refine ⟨⟨?_, ?_⟩, ⟨?_, ?_⟩, fun v rest h => (pop_of_cons q v rest h).1⟩
  · intro h
    cases hi : q.items with
    | nil =>
      rw [pop_of_empty q hi] at h
      refine ⟨rfl, ?_⟩
      by_cases hc : q.is_closed = true
      · exact hc
      · simp [hc] at h
    | cons v rest =>
      rw [(pop_of_cons q v rest hi).1] at h
      exact absurd h (by simp)
  · rintro ⟨hi, hc⟩
    rw [pop_of_empty q hi]
    simp [hc]
  · intro h
    cases hi : q.items with
    | nil =>
      rw [pop_of_empty q hi] at h
      refine ⟨rfl, ?_⟩
      by_cases hc : q.is_closed = true
      · simp [hc] at h
      · simpa using hc
    | cons v rest =>
      rw [(pop_of_cons q v rest hi).1] at h
      exact absurd h (by simp)
  · rintro ⟨hi, hc⟩
    rw [pop_of_empty q hi]
    simp [hc]

/-- Witness for C4 at a concrete bounded queue whose front item is 7. -/
theorem c4_pop_error_taxonomy_witness :
    sampleB7.items = 7 :: [] ∧ (sampleB7.pop).2 = Except.ok 7 :=
  ⟨rfl, (c4_pop_error_taxonomy sampleB7).2.2 7 [] rfl⟩

/-- Claim C5: a push that does not return Ok returns Full or Closed
    carrying exactly the pushed value; Full happens only on a bounded
    queue at capacity that is open, and Closed only on a closed queue. -/
theorem c5_push_error_ownership {α : Type} (q : ConcurrentQueue α) (v : α) :
    ((q.push v).2 = Except.ok () ∨
      (q.push v).2 = Except.error (.Full v) ∨
      (q.push v).2 = Except.error (.Closed v)) ∧
    ((q.push v).2 = Except.error (.Full v) →
      (∃ c, q.capacity = some c ∧ q.len = c) ∧ q.is_closed = false) ∧
    ((q.push v).2 = Except.error (.Closed v) → q.is_closed = true) ∧
    (∀ w, (q.push v).2 = Except.error (.Full w) → w = v) ∧
    (∀ w, (q.push v).2 = Except.error (.Closed w) → w = v) := by
  obtain ⟨inner⟩ := q
  cases inner with
  | Bounded b =>
    by_cases hc : b.closed = true
    · refine ⟨Or.inr (Or.inr ?_), ?_, ?_, ?_, ?_⟩ <;>
        simp [ConcurrentQueue.push, Bounded.push, hc,
          ConcurrentQueue.is_closed, Bounded.is_closed]
    · by_cases hf : b.items.length = b.capacity
      · refine ⟨Or.inr (Or.inl ?_), ?_, ?_, ?_, ?_⟩ <;>
          simp [ConcurrentQueue.push, Bounded.push, hc, hf,
            ConcurrentQueue.is_closed, Bounded.is_closed,
            ConcurrentQueue.capacity, Bounded.cap, ConcurrentQueue.len,
            Bounded.len]
      · refine ⟨Or.inl ?_, ?_, ?_, ?_, ?_⟩ <;>
          simp [ConcurrentQueue.push, Bounded.push, hc, hf]
  | Unbounded u =>
    by_cases hc : u.closed = true
    · refine ⟨Or.inr (Or.inr ?_), ?_, ?_, ?_, ?_⟩ <;>
        simp [ConcurrentQueue.push, Unbounded.push, hc,
          ConcurrentQueue.is_closed, Unbounded.is_closed]
    · refine ⟨Or.inl ?_, ?_, ?_, ?_, ?_⟩ <;>
        simp [ConcurrentQueue.push, Unbounded.push, hc]

/-- Witness for C5 at a concrete full open bounded queue of capacity 1. -/
theorem c5_push_error_ownership_witness :
    (sampleBFull.push 9).2 = Except.error (.Full 9) ∧
    ((∃ c, sampleBFull.capacity = some c ∧ sampleBFull.len = c) ∧
      sampleBFull.is_closed = false) :=
  ⟨rfl, (c5_push_error_ownership sampleBFull 9).2.1 rfl⟩

/-- Claim C6: after any sequence of operations on a queue created by
    unbounded(), is_full() returns false, push never returns Full, and
    when the queue is open push returns Ok. -/
theorem c6_unbounded_never_full {α : Type} (ops : List (Op α)) (v : α) :
    (runOps (ConcurrentQueue.unbounded (α := α)) ops).is_full = false ∧
    (∀ w, ((runOps (ConcurrentQueue.unbounded (α := α)) ops).push v).2 ≠
      Except.error (.Full w)) ∧
    ((runOps (ConcurrentQueue.unbounded (α := α)) ops).is_closed = false →
      ((runOps (ConcurrentQueue.unbounded (α := α)) ops).push v).2 =
        Except.ok ()) := by
  have hcap : (runOps (ConcurrentQueue.unbounded (α := α)) ops).capacity
      = none := by
    rw [runOps_capacity]
    rfl
  exact ⟨is_full_of_capacity_none _ hcap,
    fun w => push_not_full_of_capacity_none _ v w hcap,
    fun ho => push_ok_of_capacity_none_open _ v hcap ho⟩

/-- Witness for C6 with one prior push on a fresh unbounded queue. -/
theorem c6_unbounded_never_full_witness :
    (runOps (ConcurrentQueue.unbounded (α := Nat)) [Op.push 1]).is_full
      = false ∧
    (runOps (ConcurrentQueue.unbounded (α := Nat)) [Op.push 1]).is_closed
      = false ∧
    ((runOps (ConcurrentQueue.unbounded (α := Nat)) [Op.push 1]).push 2).2
      = Except.ok () :=
  ⟨(c6_unbounded_never_full [Op.push 1] 2).1, rfl,
    (c6_unbounded_never_full [Op.push 1] 2).2.2 rfl⟩

/-- Claim C7: after any sequence of operations, a queue created by
    bounded(cap) has len() ≤ cap, and a queue created by unbounded() has
    len() ≥ 0. -/
theorem c7_len_bounds {α : Type} (cap : Nat) (q0 : ConcurrentQueue α)
    (ops : List (Op α)) (h : ConcurrentQueue.bounded cap = some q0) :
    (runOps q0 ops).len ≤ cap ∧
    0 ≤ (runOps (ConcurrentQueue.unbounded (α := α)) ops).len := by
  refine ⟨?_, Nat.zero_le _⟩
  obtain ⟨-, rfl⟩ := bounded_some_spec cap q0 h
  obtain ⟨b, hb, -, hlen⟩ := runOps_bounded_inv cap _ ops
    ⟨⟨cap, [], false⟩, rfl, rfl, Nat.zero_le _⟩
  rw [len_of_inner_bounded _ b hb]
  exact hlen

/-- Witness for C7: capacity 2, three pushes attempted. -/
theorem c7_len_bounds_witness :
    ConcurrentQueue.bounded 2 =
      some (⟨.Bounded ⟨2, [], false⟩⟩ : ConcurrentQueue Nat) ∧
    (runOps (⟨.Bounded ⟨2, [], false⟩⟩ : ConcurrentQueue Nat)
      [Op.push 1, Op.push 2, Op.push 3]).len ≤ 2 :=
  ⟨rfl, (c7_len_bounds 2 _ [Op.push 1, Op.push 2, Op.push 3] rfl).1⟩

/-- Claim C8: bounded(cap) reports capacity() = some cap, and that value
    is unchanged by any sequence of operations; unbounded() reports
    capacity() = none, likewise unchanged. -/
theorem c8_capacity_reporting {α : Type} (cap : Nat)
    (q0 : ConcurrentQueue α) (ops ops2 : List (Op α))
    (h : ConcurrentQueue.bounded cap = some q0) :
    q0.capacity = some cap ∧
    (runOps q0 ops).capacity = some cap ∧
    (ConcurrentQueue.unbounded (α := α)).capacity = none ∧
    (runOps (ConcurrentQueue.unbounded (α := α)) ops2).capacity = none := by
  obtain ⟨-, rfl⟩ := bounded_some_spec cap q0 h
  refine ⟨rfl, ?_, rfl, ?_⟩ <;> · rw [runOps_capacity]; rfl

/-- Witness for C8 at capacity 7 with a mixed operation sequence. -/
theorem c8_capacity_reporting_witness :
    ConcurrentQueue.bounded 7 =
      some (⟨.Bounded ⟨7, [], false⟩⟩ : ConcurrentQueue Nat) ∧
    (runOps (⟨.Bounded ⟨7, [], false⟩⟩ : ConcurrentQueue Nat)
      [Op.push 1, Op.close, Op.pop]).capacity = some 7 ∧
    (runOps (ConcurrentQueue.unbounded (α := Nat))
      [Op.push 1, Op.close, Op.pop]).capacity = none :=
  ⟨rfl,
    (c8_capacity_reporting 7 _ [Op.push 1, Op.close, Op.pop] [] rfl).2.1,
    (c8_capacity_reporting 7 _ [] [Op.push 1, Op.close, Op.pop]
      rfl).2.2.2⟩

/-- Claim C9: bounded(cap) fails (returns none, modelling the panic) iff
    cap = 0; for cap ≥ 1 it yields an open, empty queue. -/
theorem c9_zero_capacity_rejected {α : Type} (cap : Nat) :
    (ConcurrentQueue.bounded (α := α) cap = none ↔ cap = 0) ∧
    (1 ≤ cap → ∃ q0, ConcurrentQueue.bounded (α := α) cap = some q0 ∧
      q0.is_closed = false ∧ q0.is_empty = true ∧ q0.len = 0) := by
  constructor
  · constructor
    · intro h
      by_cases hc : cap = 0
      · exact hc
      · simp [ConcurrentQueue.bounded, Bounded.new, hc] at h
    · intro h
      simp [ConcurrentQueue.bounded, Bounded.new, h]
  · intro h
    have hc : ¬ cap = 0 := by omega
    exact ⟨⟨.Bounded ⟨cap, [], false⟩⟩,
      by simp [ConcurrentQueue.bounded, Bounded.new, hc], rfl, rfl, rfl⟩

/-- Witness for C9 at capacities 0 and 3. -/
theorem c9_zero_capacity_rejected_witness :
    ConcurrentQueue.bounded (α := Nat) 0 = none ∧
    (1 ≤ 3 ∧ ∃ q0, ConcurrentQueue.bounded (α := Nat) 3 = some q0 ∧
      q0.is_closed = false ∧ q0.is_empty = true ∧ q0.len = 0) :=
  ⟨(c9_zero_capacity_rejected 0).1.mpr rfl,
    by decide, (c9_zero_capacity_rejected 3).2 (by decide)⟩

/-- Claim C10: over any linearized interleaving of operations on a fresh
    queue (any operation sequence mixing pushes by any producers and pops
    by any consumers, each operation atomic), if the queue ends drained
    then the multiset of values returned by successful pops equals the
    multiset of values accepted by successful pushes: nothing is lost and
    nothing is delivered twice. -/
theorem c10_exactly_once {α : Type} (q0 : ConcurrentQueue α) (cap : Nat)
    (ops : List (Op α))
    (hinit : ConcurrentQueue.bounded cap = some q0 ∨
      q0 = ConcurrentQueue.unbounded)
    (hdrained : ((runTrace q0 ops).1).len = 0) :
    Multiset.ofList ((runTrace q0 ops).2.2) =
      Multiset.ofList ((runTrace q0 ops).2.1) := by
  have h0 : q0.items = [] := by
    rcases hinit with h | h
    · rw [(bounded_some_spec cap q0 h).2]
      rfl
    · rw [h]
      rfl
  have hfin : ((runTrace q0 ops).1).items = [] := by
    rw [len_eq_items_length] at hdrained
    exact List.length_eq_zero.mp hdrained
  have hinv := runTrace_invariant ops q0
  rw [h0, hfin, List.append_nil, List.nil_append] at hinv
  rw [hinv]

/-- Witness for C10: two producers' pushes interleaved with pops that
    drain the queue. -/
theorem c10_exactly_once_witness :
    ((⟨.Unbounded ⟨[], false⟩⟩ : ConcurrentQueue Nat) =
      ConcurrentQueue.unbounded) ∧
    ((runTrace (ConcurrentQueue.unbounded (α := Nat))
      [Op.push 1, Op.push 2, Op.pop, Op.push 3, Op.pop, Op.pop]).1).len
        = 0 ∧
    Multiset.ofList ((runTrace (ConcurrentQueue.unbounded (α := Nat))
      [Op.push 1, Op.push 2, Op.pop, Op.push 3, Op.pop, Op.pop]).2.2) =
    Multiset.ofList ((runTrace (ConcurrentQueue.unbounded (α := Nat))
      [Op.push 1, Op.push 2, Op.pop, Op.push 3, Op.pop, Op.pop]).2.1) :=
  ⟨rfl, rfl, c10_exactly_once (ConcurrentQueue.unbounded (α := Nat)) 0
    [Op.push 1, Op.push 2, Op.pop, Op.push 3, Op.pop, Op.pop]
    (Or.inr rfl) rfl⟩

end ConcurrentQueueModel
